import Mathlib

/-!
Verification of the `pbit_lsb_release` package (LSB.py, LSBCommand.py):
a shallow embedding of the distribution-family dispatch, per-family field
derivation, number-to-English-words conversion, and output formatting,
with theorems settling the specification's claims about them.

Python strings are modelled as Lean `String` (lists of characters);
Python `None`-or-`str` values as `Option String`; raisable Python
exceptions as `Except PyErr`.  ASCII-only modelling: CPython's `int()`
and `str.strip()` additionally accept some non-ASCII characters, which
the metadata handled here never contains.
-/

/-- The Python exception kinds the embedded code can raise. -/
inductive PyErr where
  | keyError
  | valueError
  | typeError
  | attributeError
deriving DecidableEq

/-- The three supported distribution families (`CentOSLSB`, `FedoraLSB`,
`RhelLSB`). -/
inductive Family where
  | centos
  | fedora
  | rhel
deriving DecidableEq

/-- `True` on `Except.error`, `False` on `Except.ok`. -/
def isErr {α : Type} : Except PyErr α → Bool
  | .error _ => true
  | .ok _ => false

/-- The characters of Python `string.whitespace`. -/
def pyWS : List Char := [' ', '\t', '\n', '\r', Char.ofNat 11, Char.ofNat 12]

/-- The double-quote character. -/
def dqChar : Char := Char.ofNat 34

/-- The single-quote character. -/
def sqChar : Char := Char.ofNat 39

/-- The quote characters stripped by `.strip("\x22\x27")` in
`LSB._getLineData`. -/
def quoteChars : List Char := [dqChar, sqChar]

/-- Model of Python `str.rstrip(set)` on character lists: remove the
longest trailing run of characters belonging to `set`. -/
def dropTrailing (set : List Char) (l : List Char) : List Char :=
  (l.reverse.dropWhile (fun c => set.contains c)).reverse

/-- Model of Python `str.strip(set)`: remove leading and trailing runs of
characters belonging to `set`. -/
def stripSet (set : List Char) (l : List Char) : List Char :=
  dropTrailing set (l.dropWhile (fun c => set.contains c))

/-- Model of Python `str.strip()` (whitespace, both ends) on a `String`. -/
def pyStrip (s : String) : String :=
  String.mk (stripSet pyWS s.toList)

/-- Model of Python `str.replace(" ", "")`: remove every space character. -/
def removeSpaces (s : String) : String :=
  String.mk (s.toList.filter (fun c => c ≠ ' '))

/-- Model of Python `in` for a character set: does `s` contain a
`string.whitespace` character?  This is the quoting condition of
`LSB._formatData`. -/
def hasWS (s : String) : Bool :=
  s.toList.any (fun c => pyWS.contains c)

/-- Model of Python `str.startswith` on character lists. -/
def listStartsWith : List Char → List Char → Bool
  | [], _ => true
  | _ :: _, [] => false
  | p :: ps, c :: cs => p == c && listStartsWith ps cs

/-- `LSB._getLineData(lineId, rawData)`: scan the raw metadata lines for
the first one beginning with `lineId=`; return the remainder of that line
with leading and trailing single/double-quote characters stripped, or
`none` (Python `None`) when no line matches. -/
def getLineData (lineId : String) : List String → Option String
  | [] => none
  | line :: rest =>
    if listStartsWith (lineId ++ "=").toList line.toList then
      some (String.mk (stripSet quoteChars
        (line.toList.drop (lineId ++ "=").toList.length)))
    else getLineData lineId rest

/-- `LSB.makeLSB`: dictionary dispatch on the `ID` value.  A missing `ID`
line (Python `None`) or an unrecognized value is a dictionary-lookup
`KeyError`. -/
def makeLSB (rawData : List String) : Except PyErr Family :=
  match getLineData "ID" rawData with
  | some "centos" => .ok .centos
  | some "fedora" => .ok .fedora
  | some "rhel" => .ok .rhel
  | _ => .error .keyError

/-- Is `l` a valid Python integer-literal digit run (digits with
underscores strictly between digits)?  Splitting on underscores, every
group must be non-empty and all-digits. -/
def validUnderscoreDigits (l : List Char) : Bool :=
  !l.isEmpty && (l.splitOn '_').all (fun g => !g.isEmpty && g.all Char.isDigit)

/-- Numeric value of a digit run, ignoring underscores. -/
def digitsToNat (l : List Char) : Nat :=
  (l.filter (fun c => c ≠ '_')).foldl (fun a c => a * 10 + (c.toNat - 48)) 0

/-- Model of CPython `int(s)` for ASCII strings: strip surrounding
whitespace, allow one optional sign, then digits with underscores
strictly between digits; `none` models a `ValueError`. -/
def pyIntParse (s : String) : Option Int :=
  match stripSet pyWS s.toList with
  | '+' :: rest =>
    if validUnderscoreDigits rest then some (Int.ofNat (digitsToNat rest)) else none
  | '-' :: rest =>
    if validUnderscoreDigits rest then some (-(Int.ofNat (digitsToNat rest))) else none
  | rest =>
    if validUnderscoreDigits rest then some (Int.ofNat (digitsToNat rest)) else none

/-- The `digitMap` dictionary of `ReleaseAsText._getReleaseAsText`
(ones digits; key `0` maps to the empty string). -/
def digitMap (n : Int) : Option String :=
  if n = 0 then some "" else if n = 1 then some "One"
  else if n = 2 then some "Two" else if n = 3 then some "Three"
  else if n = 4 then some "Four" else if n = 5 then some "Five"
  else if n = 6 then some "Six" else if n = 7 then some "Seven"
  else if n = 8 then some "Eight" else if n = 9 then some "Nine"
  else none

/-- The nested teens dictionary `tensMap[10]` of
`ReleaseAsText._getReleaseAsText`, indexed by the ones digit. -/
def teensMap (n : Int) : Option String :=
  if n = 0 then some "Ten" else if n = 1 then some "Eleven"
  else if n = 2 then some "Twelve" else if n = 3 then some "Thirteen"
  else if n = 4 then some "Fourteen" else if n = 5 then some "Fifteen"
  else if n = 6 then some "Sixteen" else if n = 7 then some "Seventeen"
  else if n = 8 then some "Eighteen" else if n = 9 then some "Nineteen"
  else none

/-- The string-valued entries of the `tensMap` dictionary (key `10` holds
the nested teens dictionary and is only reached through the `tens == 10`
branch, never through this lookup). -/
def tensWordMap (t : Int) : Option String :=
  if t = 0 then some "" else if t = 20 then some "Twenty"
  else if t = 30 then some "Thirty" else if t = 40 then some "Forty"
  else if t = 50 then some "Fifty" else if t = 60 then some "Sixty"
  else if t = 70 then some "Seventy" else if t = 80 then some "Eighty"
  else if t = 90 then some "Ninety" else none

/-- The body of `ReleaseAsText._getReleaseAsText` after
`int(self._getRelease())` has produced `n`.  Python `%` and `//` on a
positive modulus are Euclidean, hence `Int.emod` / `Int.ediv`.  A
`tensMap` lookup miss raises `KeyError`. -/
def getReleaseAsTextOfInt (n : Int) : Except PyErr String :=
  let digit := n.emod 10
  let tens := n.ediv 10 * 10
  if tens = 10 then
    match teensMap digit with
    | some w => .ok w
    | none => .error .keyError
  else
    match tensWordMap tens with
    | none => .error .keyError
    | some tw =>
      match digitMap digit with
      | none => .error .keyError
      | some dw => .ok (pyStrip (tw ++ " " ++ dw))

/-- `ReleaseAsText._getReleaseAsText` applied to a `VERSION_ID` string:
`int()` parse failure raises `ValueError`. -/
def getReleaseAsTextOfStr (s : String) : Except PyErr String :=
  match pyIntParse s with
  | none => .error .valueError
  | some n => getReleaseAsTextOfInt n

/-- `ReleaseAsText._getReleaseAsText` on a raw-metadata snapshot:
`self._getRelease()` is the `VERSION_ID` line value; `int(None)` raises
`TypeError`. -/
def getReleaseAsText (rawData : List String) : Except PyErr String :=
  match getLineData "VERSION_ID" rawData with
  | none => .error .typeError
  | some s => getReleaseAsTextOfStr s

/-- Largest `k < n` with `P k`, or `none`.  This is the semantics of a
greedy (longest-first, backtracking) `.*` before a required token in the
regular expressions of `LSB.py`: the engine commits to the *last*
position at which the remainder still matches. -/
def findLastBelow (P : Nat → Bool) : Nat → Option Nat
  | 0 => none
  | n + 1 => if P n then some n else findLastBelow P n

/-- Semantics of `re.search` for the two parenthetical patterns of
`LSB.py`, which share the shape `.*\x28 body \x29` with greedy `.*` and
greedy body: the match, when it exists, pairs
`i` = the last index of a `(` that still leaves room for the body and a
closing `)` (`i + minGap ≤ J`), with
`J` = the last index of a `)` in the string.
`minGap = 2` models `.*\x28(.+)\x29` (`_getCodename`: at least one
character inside); `minGap = 1` models `(.*\x28).*(\x29.*)`
(`_replaceParentheticalWithReleaseText`: possibly empty inside). -/
def greedyParenMatch (cs : List Char) (minGap : Nat) : Option (Nat × Nat) :=
  match findLastBelow (fun j => decide (cs[j]? = some ')')) cs.length with
  | none => none
  | some J =>
    match findLastBelow
        (fun i => decide (cs[i]? = some '(') && decide (i + minGap ≤ J))
        cs.length with
    | none => none
    | some i => some (i, J)

/-- `LSB._getCodename`'s regex step on a present `VERSION` value:
`re.search(r".*\x28(.+)\x29", v).group(1).replace(" ", "")`.  A failed
search returns `None`, whose `.group` raises `AttributeError`. -/
def rhelCodenameOfVersion (v : String) : Except PyErr String :=
  match greedyParenMatch v.toList 2 with
  | none => .error .attributeError
  | some (i, J) =>
    .ok (String.mk
      (((v.toList.drop (i + 1)).take (J - (i + 1))).filter (fun c => c ≠ ' ')))

/-- `FedoraLSB._replaceParentheticalWithReleaseText` on a Python value
that may be `None` (raw lookup miss): `re.search` on `None` raises
`TypeError`; a failed search raises `AttributeError` at `.group(1)`;
otherwise the result is `group(1) ++ words ++ group(2)` where `group(1)`
is everything through the last eligible `(` and `group(2)` is everything
from the last `)` on.  `group(1)` is evaluated before
`self._getReleaseAsText()`, so a missing parenthetical is reported before
any words-conversion error. -/
def replaceParenthetical (rawData : List String) (value : Option String) :
    Except PyErr String :=
  match value with
  | none => .error .typeError
  | some v =>
    match greedyParenMatch v.toList 1 with
    | none => .error .attributeError
    | some (i, J) => do
      let w ← getReleaseAsText rawData
      pure (String.mk (v.toList.take (i + 1) ++ w.toList ++ v.toList.drop J))

/-- Python `str(x)` for a `None`-or-string value, as used by
`"{0} ({1})".format(...)`. -/
def optStr : Option String → String
  | some s => s
  | none => "None"

/-- Per-family `_getVersion`: `RhelLSB` inherits the raw `VERSION` value
(possibly `None`); `CentOSLSB` appends a parenthetical words-spelled
release; `FedoraLSB` replaces the parenthetical of the raw value. -/
def getVersionField : Family → List String → Except PyErr (Option String)
  | .rhel, rawData => .ok (getLineData "VERSION" rawData)
  | .centos, rawData => do
    let w ← getReleaseAsText rawData
    pure (some (optStr (getLineData "VERSION" rawData) ++ " (" ++ w ++ ")"))
  | .fedora, rawData =>
    (replaceParenthetical rawData (getLineData "VERSION" rawData)).map some

/-- Per-family `_getDescription`: `RhelLSB` inherits the raw
`PRETTY_NAME` value (possibly `None`); `CentOSLSB` appends a
parenthetical words-spelled release; `FedoraLSB` replaces the
parenthetical of the raw value. -/
def getDescriptionField : Family → List String → Except PyErr (Option String)
  | .rhel, rawData => .ok (getLineData "PRETTY_NAME" rawData)
  | .centos, rawData => do
    let w ← getReleaseAsText rawData
    pure (some (optStr (getLineData "PRETTY_NAME" rawData) ++ " (" ++ w ++ ")"))
  | .fedora, rawData =>
    (replaceParenthetical rawData (getLineData "PRETTY_NAME" rawData)).map some

/-- Per-family `_getCodename`: `RhelLSB` inherits the base parenthetical
extraction from `VERSION` (a missing `VERSION` passes `None` to
`re.search`, raising `TypeError`); `CentOSLSB` and `FedoraLSB` both
override it to the words-spelled release with spaces removed. -/
def getCodenameField : Family → List String → Except PyErr String
  | .rhel, rawData =>
    match getLineData "VERSION" rawData with
    | none => .error .typeError
    | some v => rhelCodenameOfVersion v
  | .centos, rawData => (getReleaseAsText rawData).map removeSpaces
  | .fedora, rawData => (getReleaseAsText rawData).map removeSpaces

/-- `LSB._getIdentifier` (shared by all families): the raw `NAME` value
with `.rstrip("Linux")` (a trailing run of characters drawn from the set
`{L,i,n,u,x}` removed), then `.strip()`, then `.replace(" ", "")`.
`None.rstrip` raises `AttributeError`. -/
def getIdentifierField (rawData : List String) : Except PyErr String :=
  match getLineData "NAME" rawData with
  | none => .error .attributeError
  | some s =>
    .ok (removeSpaces (String.mk
      (stripSet pyWS (dropTrailing ['L', 'i', 'n', 'u', 'x'] s.toList))))

/-- `LSB._getRelease` (shared by all families): the raw `VERSION_ID`
value, possibly `None`; never raises. -/
def getReleaseField (rawData : List String) : Except PyErr (Option String) :=
  .ok (getLineData "VERSION_ID" rawData)

/-- The five derived fields of one snapshot (`LSB._getInfo`'s
dictionary).  `version`, `description` and `release` can be Python
`None` when the corresponding key is absent; `identifier` and `codename`
raise instead of producing `None`. -/
structure InfoDict where
  version : Option String
  identifier : String
  description : Option String
  release : Option String
  codename : String
deriving DecidableEq

/-- `LSB._getInfo`: builds the dictionary of all five fields.  The dict
literal's value expressions are evaluated in source order — codename,
description, identifier, release, version — and the first exception
propagates. -/
def getInfo (fam : Family) (rawData : List String) : Except PyErr InfoDict := do
  let codename ← getCodenameField fam rawData
  let description ← getDescriptionField fam rawData
  let identifier ← getIdentifierField rawData
  let release ← getReleaseField rawData
  let version ← getVersionField fam rawData
  pure ⟨version, identifier, description, release, codename⟩

/-- The argparse result consumed by `LSB.info` and
`LSBCommand._getArguments`: the five field-selection flags, the
`--all` flag and the `--short` flag. -/
structure Args where
  reportAll : Bool
  reportVersion : Bool
  reportIdentifier : Bool
  reportDescription : Bool
  reportRelease : Bool
  reportCodename : Bool
  useShortOutput : Bool
deriving DecidableEq

/-- `os.linesep` on the POSIX platforms this package targets. -/
def osLinesep : String := "\n"

/-- `LSB._formatData`: in short mode a value containing a
`string.whitespace` character is wrapped in double quotes (checking `x in
data` on Python `None` raises `TypeError`); then the label prefix is
prepended (`format` renders `None` as `"None"` in long mode). -/
def formatData (args : Args) (pfx : String) (data : Option String) :
    Except PyErr String :=
  if args.useShortOutput then
    match data with
    | none => .error .typeError
    | some d => .ok (pfx ++ (if hasWS d then "\"" ++ d ++ "\"" else d))
  else
    .ok (pfx ++ optStr data)

/-- `LSB._formatVersion`. -/
def formatVersion (args : Args) (v : Option String) : Except PyErr String :=
  formatData args (if args.useShortOutput then "" else "Version:\t") v

/-- `LSB._formatIdentifier`. -/
def formatIdentifier (args : Args) (v : String) : Except PyErr String :=
  formatData args (if args.useShortOutput then "" else "Distributor ID:\t") (some v)

/-- `LSB._formatDescription`. -/
def formatDescription (args : Args) (v : Option String) : Except PyErr String :=
  formatData args (if args.useShortOutput then "" else "Description:\t") v

/-- `LSB._formatRelease`. -/
def formatRelease (args : Args) (v : Option String) : Except PyErr String :=
  formatData args (if args.useShortOutput then "" else "Release:\t") v

/-- `LSB._formatCodename`. -/
def formatCodename (args : Args) (v : String) : Except PyErr String :=
  formatData args (if args.useShortOutput then "" else "Codename:\t") (some v)

/-- The `LSB.info` property below the `_getInfo` call: append the
formatted requested fields in the fixed source order — version,
identifier, description, release, codename — then join with the platform
line separator (long mode) or a single space (short mode). -/
def infoOfDict (d : InfoDict) (args : Args) : Except PyErr String := do
  let l : List String := []
  let l ← if args.reportVersion then do
      let x ← formatVersion args d.version
      pure (l ++ [x])
    else pure l
  let l ← if args.reportIdentifier then do
      let x ← formatIdentifier args d.identifier
      pure (l ++ [x])
    else pure l
  let l ← if args.reportDescription then do
      let x ← formatDescription args d.description
      pure (l ++ [x])
    else pure l
  let l ← if args.reportRelease then do
      let x ← formatRelease args d.release
      pure (l ++ [x])
    else pure l
  let l ← if args.reportCodename then do
      let x ← formatCodename args d.codename
      pure (l ++ [x])
    else pure l
  pure (String.intercalate (if args.useShortOutput then " " else osLinesep) l)

/-- `LSB.info` end to end: derive all five fields, then format the
requested ones. -/
def lsbInfo (fam : Family) (rawData : List String) (args : Args) :
    Except PyErr String := do
  let d ← getInfo fam rawData
  infoOfDict d args

/-- `LSBCommand._getArguments` after `argparse`: `--all` switches every
field-selection flag on; then, when no field-selection flag at all was
given, version-only is the default. -/
def getArguments (a : Args) : Args :=
  let a := if a.reportAll then
      { a with reportCodename := true, reportDescription := true,
               reportIdentifier := true, reportRelease := true,
               reportVersion := true }
    else a
  { a with reportVersion := a.reportVersion
      || !(a.reportAll || a.reportCodename || a.reportDescription
           || a.reportIdentifier || a.reportRelease) }

/-- Specification-side ones-word table (claimed fixed table; `0` maps to
the empty string). -/
def onesWordTable (n : Nat) : String :=
  if n = 1 then "One" else if n = 2 then "Two" else if n = 3 then "Three"
  else if n = 4 then "Four" else if n = 5 then "Five" else if n = 6 then "Six"
  else if n = 7 then "Seven" else if n = 8 then "Eight"
  else if n = 9 then "Nine" else ""

/-- Specification-side teen-word table, indexed by the ones digit of
`10`–`19`. -/
def teenWordTable (n : Nat) : String :=
  if n = 0 then "Ten" else if n = 1 then "Eleven" else if n = 2 then "Twelve"
  else if n = 3 then "Thirteen" else if n = 4 then "Fourteen"
  else if n = 5 then "Fifteen" else if n = 6 then "Sixteen"
  else if n = 7 then "Seventeen" else if n = 8 then "Eighteen"
  else if n = 9 then "Nineteen" else ""

/-- Specification-side decade-word table, indexed by the tens digit. -/
def decadeWordTable (n : Nat) : String :=
  if n = 2 then "Twenty" else if n = 3 then "Thirty" else if n = 4 then "Forty"
  else if n = 5 then "Fifty" else if n = 6 then "Sixty"
  else if n = 7 then "Seventy" else if n = 8 then "Eighty"
  else if n = 9 then "Ninety" else ""

/-- The English spelling of `n` in `[0, 99]` exactly as the specification
words it: ones-table word for `[0, 9]` (`0` yields the empty string);
the teen word looked up directly for `[10, 19]`; otherwise the decade
word and ones word joined by a single space, trimmed when the ones part
is empty. -/
def claimSpelling (n : Nat) : String :=
  if n ≤ 9 then onesWordTable n
  else if n ≤ 19 then teenWordTable (n - 10)
  else
    let d := onesWordTable (n % 10)
    let t := decadeWordTable (n / 10)
    if d = "" then t else t ++ " " ++ d

/-- No leading or trailing `string.whitespace` character. -/
def noEdgeWS (s : String) : Bool :=
  (s.toList.take 1 ++ s.toList.reverse.take 1).all (fun c => !pyWS.contains c)

/-- Specification-side wording of the amended identifier-handling of a
trailing run: remove trailing characters drawn from the letter set of
"Linux", by structural recursion (a character is dropped exactly when
everything after it has been dropped and it belongs to the set). -/
def specRstripLinux : List Char → List Char
  | [] => []
  | c :: rest =>
    match specRstripLinux rest with
    | [] => if (['L', 'i', 'n', 'u', 'x'] : List Char).contains c then [] else [c]
    | r => c :: r

/-- Specification-side identifier derivation (amended): `NAME` with the
trailing run of characters from the set `{L,i,n,u,x}` removed, then
whitespace-trimmed, then spaces removed. -/
def identSpec (s : String) : String :=
  removeSpaces (String.mk (stripSet pyWS (specRstripLinux s.toList)))

/-- Specification-side lookup (amended): the first line beginning with
`lineId=`, its prefix dropped and every leading and trailing single or
double-quote character stripped; `none` when no line matches. -/
def lineDataSpec (lineId : String) (rawData : List String) : Option String :=
  (rawData.find? (fun line =>
      listStartsWith (lineId ++ "=").toList line.toList)).map
    (fun line => String.mk (stripSet quoteChars
      (line.toList.drop (lineId ++ "=").toList.length)))

/-- Specification-side parenthetical extraction as the claim words it:
the text between the *first* open parenthesis and the close parenthesis
following it. -/
def firstParenExtract (s : String) : Option String :=
  let cs := s.toList
  match cs.findIdx? (fun c => c = '(') with
  | none => none
  | some i =>
    match (cs.drop (i + 1)).findIdx? (fun c => c = ')') with
    | none => none
    | some k => some (String.mk ((cs.drop (i + 1)).take k))

/-- Specification-side parenthetical replacement as the claim words it:
everything up to and including the *first* open parenthesis, then the
words-spelling, then the close parenthesis following it and everything
after it. -/
def firstParenReplaceSpec (v w : String) : Option String :=
  let cs := v.toList
  match cs.findIdx? (fun c => c = '(') with
  | none => none
  | some i =>
    match (cs.drop (i + 1)).findIdx? (fun c => c = ')') with
    | none => none
    | some k => some (String.mk (cs.take (i + 1) ++ w.toList ++ cs.drop (i + 1 + k)))

/-- Quote a field value when it contains whitespace (the claimed
short-mode rule). -/
def quoteIfWS (s : String) : String :=
  if hasWS s then "\"" ++ s ++ "\"" else s

/-- The requested fields paired with their fixed labels, in the claimed
fixed order: version, identifier, description, release, codename. -/
def selectedFields (v i de r c : String) (args : Args) :
    List (String × String) :=
  (if args.reportVersion then [("Version", v)] else []) ++
  (if args.reportIdentifier then [("Distributor ID", i)] else []) ++
  (if args.reportDescription then [("Description", de)] else []) ++
  (if args.reportRelease then [("Release", r)] else []) ++
  (if args.reportCodename then [("Codename", c)] else [])

/-- Specification-side rendering as the claim words it: in long mode each
requested field is its label, `:`, a tab and the value, joined by the
platform line separator; in short mode the values joined by single
spaces, each quoted exactly when it contains whitespace; no trailing
separator. -/
def renderSpec (v i de r c : String) (args : Args) : String :=
  if args.useShortOutput then
    String.intercalate " "
      ((selectedFields v i de r c args).map (fun p => quoteIfWS p.2))
  else
    String.intercalate osLinesep
      ((selectedFields v i de r c args).map (fun p => p.1 ++ ":" ++ "\t" ++ p.2))

/-- Decidable equality for `Except` results, for concrete evaluation. -/
instance instDecEqExcept {e a : Type} [DecidableEq e] [DecidableEq a] :
    DecidableEq (Except e a)
  | .ok x, .ok y =>
    if h : x = y then isTrue (by subst h; rfl)
    else isFalse (fun hc => h (Except.ok.inj hc))
  | .error x, .error y =>
    if h : x = y then isTrue (by subst h; rfl)
    else isFalse (fun hc => h (Except.error.inj hc))
  | .ok _, .error _ => isFalse (fun hc => Except.noConfusion hc)
  | .error _, .ok _ => isFalse (fun hc => Except.noConfusion hc)

theorem findLastBelow_eq_some (P : Nat → Bool) (n i : Nat) (h1 : P i = true)
    (h2 : i < n) (h3 : ∀ k, i < k → k < n → P k = false) :
    findLastBelow P n = some i := by
  induction n with
  | zero => omega
  | succ m ih =>
    unfold findLastBelow
    by_cases hm : i = m
    · subst hm
      rw [if_pos h1]
    · have him : i < m := by omega
      have hPm : P m = false := h3 m (by omega) (by omega)
      rw [hPm]
      simp only [Bool.false_eq_true, if_false]
      exact ih him (fun k hik hkm => h3 k hik (by omega))

theorem greedyParenMatch_eq (cs : List Char) (g J i : Nat)
    (hJ : cs[J]? = some ')')
    (hJmax : ∀ k, k < cs.length → J < k → cs[k]? ≠ some ')')
    (hi : cs[i]? = some '(')
    (hgap : i + g ≤ J)
    (himax : ∀ k, k < cs.length → i < k → cs[k]? = some '(' → ¬(k + g ≤ J)) :
    greedyParenMatch cs g = some (i, J) := by
  have hJlt : J < cs.length := (List.getElem?_eq_some.mp hJ).1
  have hilt : i < cs.length := (List.getElem?_eq_some.mp hi).1
  have e1 : findLastBelow (fun j => decide (cs[j]? = some ')')) cs.length
      = some J := by
    apply findLastBelow_eq_some _ _ _ (by simp [hJ]) hJlt
    intro k hJk hk
    simp only [decide_eq_false_iff_not]
    exact hJmax k hk hJk
  have e2 : findLastBelow
      (fun k => decide (cs[k]? = some '(') && decide (k + g ≤ J))
      cs.length = some i := by
    apply findLastBelow_eq_some _ _ _ (by simp [hi]; omega) hilt
    intro k hik hk
    simp only [Bool.and_eq_false_iff, decide_eq_false_iff_not]
    by_cases hp : cs[k]? = some '('
    · exact Or.inr (himax k hk hik hp)
    · exact Or.inl hp
  simp [greedyParenMatch, e1, e2]

theorem specRstripLinux_eq (l : List Char) :
    specRstripLinux l = dropTrailing ['L', 'i', 'n', 'u', 'x'] l := by
  induction l with
  | nil => rfl
  | cons c rest ih =>
    unfold specRstripLinux dropTrailing
    rw [List.reverse_cons, List.dropWhile_append]
    rcases hrest : (List.dropWhile
        (fun x => (['L', 'i', 'n', 'u', 'x'] : List Char).contains x)
        rest.reverse).isEmpty with _ | _
    · rw [ih]
      unfold dropTrailing
      have hne : (List.dropWhile
          (fun x => (['L', 'i', 'n', 'u', 'x'] : List Char).contains x)
          rest.reverse) ≠ [] := by
        intro hc
        rw [hc] at hrest
        simp at hrest
      simp only [hrest, Bool.false_eq_true, if_false, List.reverse_append]
      rcases he : List.dropWhile
          (fun x => (['L', 'i', 'n', 'u', 'x'] : List Char).contains x)
          rest.reverse with _ | ⟨a, t⟩
      · exact absurd he hne
      · simp
    · rw [ih]
      unfold dropTrailing
      rw [List.isEmpty_iff] at hrest
      rw [hrest]
      simp only [List.reverse_nil, List.dropWhile]
      rcases hmem : (['L', 'i', 'n', 'u', 'x'] : List Char).contains c with _ | _
      · simp
      · simp

theorem tensWordMap_none (t : Int) (h : t < 0 ∨ 100 ≤ t) :
    tensWordMap t = none := by
  unfold tensWordMap
  split_ifs <;> first | omega | rfl

theorem getReleaseAsTextOfInt_outOfRange (n : Int) (h : n < 0 ∨ 100 ≤ n) :
    getReleaseAsTextOfInt n = .error .keyError := by
  unfold getReleaseAsTextOfInt
  have hmod : 0 ≤ n.emod 10 := Int.emod_nonneg n (by norm_num)
  have hmod2 : n.emod 10 < 10 := Int.emod_lt_of_pos n (by norm_num)
  have heq : 10 * n.ediv 10 + n.emod 10 = n := Int.ediv_add_emod n 10
  have hq : n.ediv 10 * 10 ≤ -10 ∨ 100 ≤ n.ediv 10 * 10 := by omega
  rw [if_neg (by omega)]
  rw [tensWordMap_none _ (by omega)]


theorem claimSpelling_core : ∀ m : Nat, m < 100 →
    getReleaseAsTextOfInt (Int.ofNat m) = .ok (claimSpelling m) ∧
    noEdgeWS (claimSpelling m) = true := by decide

/-- Claim C1: for every integer release in `[0, 99]`, the release-to-words
conversion on a snapshot whose `VERSION_ID` spells that integer returns
the English spelling with no leading or trailing whitespace: the fixed
ones-table word for `[0, 9]` (`0` yields the empty string), the teen word
looked up directly for `[10, 19]`, and otherwise the decade word and ones
word joined by a single space, trimmed when the ones part is empty. -/
theorem releaseAsTextSpellsWords (raw : List String) (s : String) (n : Int)
    (hline : getLineData "VERSION_ID" raw = some s)
    (hparse : pyIntParse s = some n) (h0 : 0 ≤ n) (h99 : n ≤ 99) :
    getReleaseAsText raw = .ok (claimSpelling n.toNat) ∧
    noEdgeWS (claimSpelling n.toNat) = true := by
  have hn : Int.ofNat n.toNat = n := Int.toNat_of_nonneg h0
  have hlt : n.toNat < 100 := by omega
  have h := claimSpelling_core n.toNat hlt
  rw [hn] at h
  unfold getReleaseAsText
  rw [hline]
  dsimp only
  unfold getReleaseAsTextOfStr
  rw [hparse]
  exact h

theorem releaseAsTextSpellsWords_witness :
    getReleaseAsText ["VERSION_ID=35"] = .ok "Thirty Five" := by
  have h := releaseAsTextSpellsWords ["VERSION_ID=35"] "35" 35 (by decide)
    (by decide) (by decide) (by decide)
  have e : claimSpelling (Int.toNat 35) = "Thirty Five" := by decide
  rw [e] at h
  exact h.1

/-- Claim C9: for families A and B, a `VERSION_ID` value that is
negative, at least 100, or not parseable as an integer makes the
release-to-words conversion fail: a parse failure raises `ValueError`
(`int()`), and an out-of-range numeric value raises `KeyError` at the
tens-table lookup — the failure class the specification names
`RangeError`. -/
theorem releaseAsTextRangeError (raw : List String) (s : String)
    (hline : getLineData "VERSION_ID" raw = some s) :
    (pyIntParse s = none → getReleaseAsText raw = .error .valueError) ∧
    (∀ n : Int, pyIntParse s = some n → n < 0 ∨ 100 ≤ n →
      getReleaseAsText raw = .error .keyError) := by
  constructor
  · intro hp
    unfold getReleaseAsText
    rw [hline]
    dsimp only
    unfold getReleaseAsTextOfStr
    rw [hp]
  · intro n hp hr
    unfold getReleaseAsText
    rw [hline]
    dsimp only
    unfold getReleaseAsTextOfStr
    rw [hp]
    exact getReleaseAsTextOfInt_outOfRange n hr

theorem releaseAsTextRangeError_witness :
    getReleaseAsText ["VERSION_ID=x35"] = .error .valueError ∧
    getReleaseAsText ["VERSION_ID=100"] = .error .keyError :=
  ⟨(releaseAsTextRangeError ["VERSION_ID=x35"] "x35" (by decide)).1 (by decide),
   (releaseAsTextRangeError ["VERSION_ID=100"] "100" (by decide)).2 100
     (by decide) (by decide)⟩

/-- Claim C5: a snapshot whose `ID` value is not one of the three
recognized identifiers makes `makeLSB` fail with the unsupported-family
lookup error (`KeyError`), producing no deriver — there is no default
family; each recognized value constructs exactly the corresponding
variant. -/
theorem makeLSBDispatch (raw : List String) (v : String)
    (hline : getLineData "ID" raw = some v) :
    ((v ≠ "centos" ∧ v ≠ "fedora" ∧ v ≠ "rhel") →
      makeLSB raw = .error .keyError) ∧
    (v = "centos" → makeLSB raw = .ok .centos) ∧
    (v = "fedora" → makeLSB raw = .ok .fedora) ∧
    (v = "rhel" → makeLSB raw = .ok .rhel) := by
  unfold makeLSB
  rw [hline]
  refine ⟨?_, ?_, ?_, ?_⟩
  · rintro ⟨h1, h2, h3⟩
    split <;> simp_all
  · rintro rfl
    rfl
  · rintro rfl
    rfl
  · rintro rfl
    rfl

theorem makeLSBDispatch_witness :
    makeLSB ["ID=gentoo"] = .error .keyError ∧
    makeLSB ["ID=fedora"] = .ok .fedora :=
  ⟨(makeLSBDispatch ["ID=gentoo"] "gentoo" (by decide)).1 (by decide),
   (makeLSBDispatch ["ID=fedora"] "fedora" (by decide)).2.2.1 rfl⟩

/-- Claim C8: with no field-selection flag given (`--short` alone
included), the effective request selects exactly the version field; with
`--all` given, all five fields are selected regardless of the other
flags; the short-output flag itself is never altered. -/
theorem argumentDefaults (a : Args) :
    ((a.reportAll = false ∧ a.reportVersion = false ∧
      a.reportIdentifier = false ∧ a.reportDescription = false ∧
      a.reportRelease = false ∧ a.reportCodename = false) →
      ((getArguments a).reportVersion = true ∧
       (getArguments a).reportIdentifier = false ∧
       (getArguments a).reportDescription = false ∧
       (getArguments a).reportRelease = false ∧
       (getArguments a).reportCodename = false)) ∧
    (a.reportAll = true →
      ((getArguments a).reportVersion = true ∧
       (getArguments a).reportIdentifier = true ∧
       (getArguments a).reportDescription = true ∧
       (getArguments a).reportRelease = true ∧
       (getArguments a).reportCodename = true)) ∧
    (getArguments a).useShortOutput = a.useShortOutput := by
  obtain ⟨all, v, i, d, r, c, s⟩ := a
  refine ⟨?_, ?_, ?_⟩
  · rintro ⟨rfl, rfl, rfl, rfl, rfl, rfl⟩
    simp [getArguments]
  · rintro rfl
    simp [getArguments]
  · cases all <;> simp [getArguments]

theorem argumentDefaults_witness :
    ((getArguments ⟨false, false, false, false, false, false, true⟩).reportVersion
      = true) ∧
    ((getArguments ⟨true, false, false, false, false, true, false⟩).reportRelease
      = true) :=
  ⟨((argumentDefaults ⟨false, false, false, false, false, false, true⟩).1
      (by decide)).1,
   (((argumentDefaults ⟨true, false, false, false, false, true, false⟩).2.1
      (by decide)).2.2.2.1)⟩

/-- Claim C2, counterexample: on a `VERSION` value with two
parentheticals the claimed first-parenthetical extraction would yield
"Alpha", but the greedy regex of `_getCodename` extracts the last one,
"Beta". -/
theorem codenameDerivation_counter :
    (firstParenExtract "1.0 (Alpha) x (Beta) y").map removeSpaces
      = some "Alpha" ∧
    getCodenameField .rhel ["ID=rhel", "VERSION=1.0 (Alpha) x (Beta) y"]
      = .ok "Beta" ∧
    ("Beta" : String) ≠ "Alpha" := by
  refine ⟨by decide, by decide, by decide⟩

/-- Claim C2 as amended: for family C (rhel) the codename is the text
between the *last* open parenthesis that leaves room for at least one
character and a close parenthesis after it (`i + 2 ≤ J`) and the *last*
close parenthesis of the raw `VERSION` value, with space characters
removed; for families A (centos) and B (fedora) the codename is the
words-spelled release with spaces removed, independent of the `VERSION`
value. -/
theorem codenameDerivation :
    (∀ (raw : List String) (v : String) (J i : Nat),
      getLineData "VERSION" raw = some v →
      v.toList[J]? = some ')' →
      (∀ k, k < v.toList.length → J < k → v.toList[k]? ≠ some ')') →
      v.toList[i]? = some '(' →
      i + 2 ≤ J →
      (∀ k, k < v.toList.length → i < k → v.toList[k]? = some '(' →
        ¬(k + 2 ≤ J)) →
      getCodenameField .rhel raw =
        .ok (String.mk (((v.toList.drop (i + 1)).take (J - (i + 1))).filter
          (fun c => c ≠ ' ')))) ∧
    (∀ (fam : Family) (raw : List String) (w : String), fam ≠ .rhel →
      getReleaseAsText raw = .ok w →
      getCodenameField fam raw = .ok (removeSpaces w)) := by
  constructor
  · intro raw v J i hline hJ hJmax hi hgap himax
    have hg := greedyParenMatch_eq v.toList 2 J i hJ hJmax hi hgap himax
    unfold getCodenameField
    dsimp only
    rw [hline]
    dsimp only
    unfold rhelCodenameOfVersion
    rw [hg]
  · intro fam raw w hfam hw
    cases fam
    · unfold getCodenameField
      dsimp only
      rw [hw]
      rfl
    · unfold getCodenameField
      dsimp only
      rw [hw]
      rfl
    · exact absurd rfl hfam

theorem codenameDerivation_witness :
    getCodenameField .rhel ["VERSION=8.4 (Ootpa)"] = .ok "Ootpa" ∧
    getCodenameField .centos ["VERSION_ID=35"] = .ok "ThirtyFive" := by
  constructor
  · have h := codenameDerivation.1 ["VERSION=8.4 (Ootpa)"] "8.4 (Ootpa)" 10 4
      (by decide) (by decide) (by decide) (by decide) (by decide) (by decide)
    have e : String.mk ((("8.4 (Ootpa)".toList.drop 5).take 5).filter
        (fun c => c ≠ ' ')) = "Ootpa" := by decide
    rw [e] at h
    exact h
  · have h := codenameDerivation.2 .centos ["VERSION_ID=35"] "Thirty Five"
      (by decide) (by decide)
    have e : removeSpaces "Thirty Five" = "ThirtyFive" := by decide
    rw [e] at h
    exact h

/-- Claim C3, counterexample: on a `PRETTY_NAME` with two parentheticals
the claimed first-parenthetical replacement would yield
"A (One) C (D) E", but `_replaceParentheticalWithReleaseText`'s greedy
regex replaces the last one, yielding "A (B) C (One) E". -/
theorem fedoraReplaceParenthetical_counter :
    firstParenReplaceSpec "A (B) C (D) E" "One" = some "A (One) C (D) E" ∧
    getDescriptionField .fedora ["PRETTY_NAME=A (B) C (D) E", "VERSION_ID=1"]
      = .ok (some "A (B) C (One) E") ∧
    ("A (B) C (One) E" : String) ≠ "A (One) C (D) E" := by
  refine ⟨by decide, by decide, by decide⟩

/-- Claim C3 as amended: for family B (fedora), on a `PRETTY_NAME`
(respectively `VERSION`) value containing a parenthesis pair, the derived
description (respectively version) equals everything up to and including
the *last* open parenthesis preceding the last close parenthesis,
followed by the words-spelled release, followed by the *last* close
parenthesis and everything after it. -/
theorem fedoraReplaceParenthetical (raw : List String) (v w : String)
    (J i : Nat)
    (hJ : v.toList[J]? = some ')')
    (hJmax : ∀ k, k < v.toList.length → J < k → v.toList[k]? ≠ some ')')
    (hi : v.toList[i]? = some '(')
    (hgap : i + 1 ≤ J)
    (himax : ∀ k, k < v.toList.length → i < k → v.toList[k]? = some '(' →
      ¬(k + 1 ≤ J))
    (hw : getReleaseAsText raw = .ok w) :
    (getLineData "PRETTY_NAME" raw = some v →
      getDescriptionField .fedora raw =
        .ok (some (String.mk
          (v.toList.take (i + 1) ++ w.toList ++ v.toList.drop J)))) ∧
    (getLineData "VERSION" raw = some v →
      getVersionField .fedora raw =
        .ok (some (String.mk
          (v.toList.take (i + 1) ++ w.toList ++ v.toList.drop J)))) := by
  have hg := greedyParenMatch_eq v.toList 1 J i hJ hJmax hi hgap himax
  constructor
  · intro hline
    unfold getDescriptionField
    dsimp only
    rw [hline]
    unfold replaceParenthetical
    dsimp only
    rw [hg]
    dsimp only
    rw [hw]
    rfl
  · intro hline
    unfold getVersionField
    dsimp only
    rw [hline]
    unfold replaceParenthetical
    dsimp only
    rw [hg]
    dsimp only
    rw [hw]
    rfl

theorem fedoraReplaceParenthetical_witness :
    getDescriptionField .fedora
      ["PRETTY_NAME=Fedora 35 (W E)", "VERSION_ID=35"]
      = .ok (some "Fedora 35 (Thirty Five)") := by
  have h := (fedoraReplaceParenthetical
    ["PRETTY_NAME=Fedora 35 (W E)", "VERSION_ID=35"] "Fedora 35 (W E)"
    "Thirty Five" 14 10 (by decide) (by decide) (by decide) (by decide)
    (by decide) (by decide)).1 (by decide)
  have e : String.mk ("Fedora 35 (W E)".toList.take 11 ++
      "Thirty Five".toList ++ "Fedora 35 (W E)".toList.drop 14)
      = "Fedora 35 (Thirty Five)" := by decide
  rw [e] at h
  exact h

/-- Claim C4, counterexample: the claim predicts that a `NAME` value not
ending in the whole word "Linux" is left intact, but `.rstrip("Linux")`
strips a trailing run of *characters* from the set `{L,i,n,u,x}`, so
"Tux" becomes "T". -/
theorem identifierDerivation_counter :
    getIdentifierField ["NAME=Tux"] = .ok "T" ∧ ("T" : String) ≠ "Tux" := by
  refine ⟨by decide, by decide⟩

/-- Claim C4 as amended: the derived identifier equals the raw `NAME`
value with the trailing run of characters drawn from the letter set of
"Linux" removed, then surrounding whitespace trimmed, then spaces
removed; a `NAME` value whose last character is outside that letter set
is left intact apart from the whitespace handling. -/
theorem identifierDerivation (raw : List String) (s : String)
    (hline : getLineData "NAME" raw = some s) :
    getIdentifierField raw = .ok (identSpec s) ∧
    (∀ c, s.toList.reverse.head? = some c →
      (['L', 'i', 'n', 'u', 'x'] : List Char).contains c = false →
      getIdentifierField raw = .ok (removeSpaces (pyStrip s))) := by
  constructor
  · unfold getIdentifierField
    rw [hline]
    dsimp only
    simp [identSpec, specRstripLinux_eq]
  · intro c hc hp
    unfold getIdentifierField
    rw [hline]
    dsimp only
    have hdrop : dropTrailing ['L', 'i', 'n', 'u', 'x'] s.toList = s.toList := by
      unfold dropTrailing
      cases hrev : s.toList.reverse with
      | nil =>
        have hnil : s.toList = [] := by
          simpa using congrArg List.reverse hrev
        rw [hnil]
        simp
      | cons a t =>
        rw [hrev] at hc
        have ha : a = c := by simpa using hc
        subst ha
        rw [List.dropWhile_cons, if_neg (by rw [hp]; decide)]
        rw [← hrev, List.reverse_reverse]
    rw [hdrop]
    rfl

theorem identifierDerivation_witness :
    getIdentifierField ["NAME=Example Linux"] = .ok "Example" := by
  have h := (identifierDerivation ["NAME=Example Linux"] "Example Linux"
    (by decide)).1
  have e : identSpec "Example Linux" = "Example" := by decide
  rw [e] at h
  exact h

/-- Claim C7, counterexample: on the line `KEY=""v""` the claimed
stripping of a single matching pair of quotes would return `"v"` still
wearing one pair of quotes, but `.strip` removes every leading and
trailing quote character, returning bare `v`. -/
theorem lineDataQuoteStrip_counter :
    getLineData "KEY"
      [String.mk ['K', 'E', 'Y', '=', dqChar, dqChar, 'v', dqChar, dqChar]]
      = some "v" ∧
    ("v" : String) ≠ String.mk [dqChar, 'v', dqChar] := by
  refine ⟨by decide, by decide⟩

/-- Claim C7 as amended: the lookup helper returns, from the first line
beginning with `KEY=`, the remainder after that prefix with *every*
leading and trailing single or double-quote character stripped (not just
one matching pair), and `none` — distinguishable from an empty string —
when no line begins with `KEY=`. -/
theorem lineDataLookup (lineId : String) (rawData : List String) :
    getLineData lineId rawData = lineDataSpec lineId rawData := by
  induction rawData with
  | nil => rfl
  | cons line rest ih =>
    unfold getLineData lineDataSpec
    cases h : listStartsWith (lineId ++ "=").toList line.toList with
    | true =>
      rw [if_pos rfl]
      rw [@List.find?_cons_of_pos String
        (fun line => listStartsWith (lineId ++ "=").toList line.toList)
        line rest h]
      rfl
    | false =>
      rw [if_neg (by decide)]
      have h2 : ¬((fun line =>
          listStartsWith (lineId ++ "=").toList line.toList) line = true) := by
        simp only [h, Bool.false_eq_true, not_false_eq_true]
      rw [@List.find?_cons_of_neg String
        (fun line => listStartsWith (lineId ++ "=").toList line.toList)
        line rest h2]
      exact ih

/-- Claim C6: for every field set and report request, the rendered output
contains exactly the requested fields in the fixed order version,
identifier, description, release, codename; in long mode each field is
its fixed label ("Version", "Distributor ID", "Description", "Release",
"Codename"), `:`, a tab, and the value, joined by the platform line
separator; in short mode the values are joined by single spaces with no
labels, a value quoted exactly when it contains whitespace (never in
long mode); no trailing separator in either mode. -/
theorem infoRendering (v i de r c : String) (args : Args) :
    infoOfDict ⟨some v, i, some de, some r, c⟩ args
      = .ok (renderSpec v i de r c args) := by
  obtain ⟨all, rv, ri, rd, rr, rc, s⟩ := args
  cases rv <;> cases ri <;> cases rd <;> cases rr <;> cases rc <;> cases s <;> rfl

/-- Claim C10: all five fields are derived before any formatting, so if
any one derivation fails the whole invocation fails and produces no
output, regardless of which fields the report request selects. -/
theorem deriveBeforeFormat (fam : Family) (raw : List String) (args : Args)
    (h : isErr (getCodenameField fam raw) = true ∨
         isErr (getDescriptionField fam raw) = true ∨
         isErr (getIdentifierField raw) = true ∨
         isErr (getReleaseField raw) = true ∨
         isErr (getVersionField fam raw) = true) :
    isErr (lsbInfo fam raw args) = true := by
  unfold lsbInfo getInfo
  cases hc : getCodenameField fam raw with
  | error e => simp [hc, isErr, Bind.bind, Except.bind]
  | ok x =>
    cases hd : getDescriptionField fam raw with
    | error e => simp [hc, hd, isErr, Bind.bind, Except.bind]
    | ok y =>
      cases hi : getIdentifierField raw with
      | error e => simp [hc, hd, hi, isErr, Bind.bind, Except.bind]
      | ok z =>
        cases hv : getVersionField fam raw with
        | error e =>
          simp [hc, hd, hi, hv, isErr, Bind.bind, Except.bind, getReleaseField]
        | ok u =>
          rcases h with h | h | h | h | h <;> simp_all [isErr, getReleaseField]

theorem deriveBeforeFormat_witness :
    isErr (lsbInfo .rhel
      ["ID=rhel", "NAME=X", "VERSION=noparen", "PRETTY_NAME=Y", "VERSION_ID=8"]
      ⟨false, true, false, false, false, false, false⟩) = true :=
  deriveBeforeFormat .rhel
    ["ID=rhel", "NAME=X", "VERSION=noparen", "PRETTY_NAME=Y", "VERSION_ID=8"]
    ⟨false, true, false, false, false, false, false⟩ (Or.inl (by decide))
